import Mathlib

/-!
# Verification of the gemini-gui rate limiter and worker request pipeline

Shallow embedding of `src/utils.py` (class `RateLimiter`) and
`src/worker.py` (`GeminiWorker.run`).  Time is modelled in deciseconds
(the poll interval of `acquire` is 0.1 s, so one poll step = one
decisecond); token counts are natural numbers.  Interactions with the
outside world (file system reads, uploads, the generate call) are
modelled by outcome values supplied as inputs, and the observable
behaviour of a run is an event trace.
-/

namespace GeminiGui

/-- State of the token bucket of `utils.RateLimiter`:
`max_requests` and the current `tokens` count. -/
structure RateLimiter where
  max_requests : Nat
  tokens : Nat
deriving Repr, DecidableEq

namespace RateLimiter

/-- `RateLimiter.__init__`: the bucket starts full (`self.tokens = max_requests`). -/
def init (maxRequests : Nat) : RateLimiter :=
  { max_requests := maxRequests, tokens := maxRequests }

/-- `utils.py` line 26: `self.refill_interval = self.period / self.max_requests`. -/
def refill_interval (maxRequests : Nat) (period : ℚ) : ℚ :=
  period / maxRequests

/-- `RateLimiter._refill_token` (one timer firing): add one token back,
only when below `max_requests`. -/
def refill_token (L : RateLimiter) : RateLimiter :=
  if L.tokens < L.max_requests then { L with tokens := L.tokens + 1 } else L

/-- `RateLimiter.release`: `self.tokens = min(self.tokens + 1, self.max_requests)`. -/
def release (L : RateLimiter) : RateLimiter :=
  { L with tokens := min (L.tokens + 1) L.max_requests }

/-- `RateLimiter.remaining`: the current token count. -/
def remaining (L : RateLimiter) : Nat :=
  L.tokens

/-- The `while True` loop of `RateLimiter.acquire`, one constructor per
iteration.  `timeout` is in deciseconds (poll interval = 1 decisecond),
`k` is the number of sleeps performed so far, so elapsed time is `k`
deciseconds.  `refills k` is the number of concurrent `refill_token`
timer firings that happen during the `k`-th sleep.  `fuel` bounds the
number of iterations the model unfolds; `none` means the fuel ran out
before the loop returned (with `timeout = none` and an empty bucket the
source loops forever). -/
def acquireAux (blocking : Bool) (timeout : Option Nat) (refills : Nat → Nat) :
    RateLimiter → Nat → Nat → Option (Bool × RateLimiter)
  | _, _, 0 => none
  | L, k, fuel + 1 =>
    if 0 < L.tokens then
      some (true, { L with tokens := L.tokens - 1 })
    else if blocking = false then
      some (false, L)
    else
      match timeout with
      | some T =>
        if T ≤ k then
          some (false, L)
        else
          acquireAux blocking timeout refills (refill_token^[refills k] L) (k + 1) fuel
      | none =>
        acquireAux blocking timeout refills (refill_token^[refills k] L) (k + 1) fuel

/-- `RateLimiter.acquire(blocking, timeout)`: run the polling loop from
elapsed time 0. -/
def acquire (L : RateLimiter) (blocking : Bool) (timeout : Option Nat)
    (refills : Nat → Nat) (fuel : Nat) : Option (Bool × RateLimiter) :=
  acquireAux blocking timeout refills L 0 fuel

end RateLimiter

/-! ## Worker model (`src/worker.py`, `GeminiWorker.run`) -/

/-- One entry of `history_context`: a dict with keys `role` and `text`. -/
structure HistItem where
  role : String
  text : String
deriving Repr, DecidableEq

/-- A single part of a Gemini content: `types.Part.from_text` or
`types.Part.from_uri`. -/
inductive Part where
  | text (s : String)
  | fromUri (file_uri : String) (mime_type : String)
deriving Repr, DecidableEq

/-- `types.Content`: a role together with a list of parts. -/
structure Content where
  role : String
  parts : List Part
deriving Repr, DecidableEq

/-- Result of one attempted `path.read_text(...)` call with a fixed
encoding: success, a `UnicodeDecodeError`, or any other exception
(for example an `OSError`). -/
inductive ReadAttempt where
  | ok (content : String)
  | unicodeError
  | osError (msg : String)
deriving Repr, DecidableEq

/-- Outcome of the File-API upload of one media file
(`client.files.upload` plus the processing wait): success with the
resulting uri and mime type, or any exception (including the
`ValueError` raised on the server-side `FAILED` state). -/
inductive UploadOutcome where
  | ok (uri : String) (mime : String)
  | failed (msg : String)
deriving Repr, DecidableEq

/-- What the environment answers for one entry of `file_paths`:
`name` is `path.name`, `fileExists` is `path.exists()`, `guessedMime`
is `mimetypes.guess_type(path)` (first component), `readUtf8` and
`readLatin1` are the outcomes of `path.read_text` with each encoding,
and `upload` is the outcome of the File-API upload. -/
structure FileEntry where
  name : String
  fileExists : Bool
  guessedMime : Option String
  readUtf8 : ReadAttempt
  readLatin1 : ReadAttempt
  upload : UploadOutcome
deriving Repr, DecidableEq

/-- Observable events of one worker run: signal emissions, network
calls, printed warnings, and limiter releases. -/
inductive Event where
  | errorEmit (msg : String)
  | finishedEmit (s : String)
  | netUpload (name : String)
  | netGenerate
  | warn (msg : String)
  | release
deriving Repr, DecidableEq

/-- `worker.py` line 78: when `mimetypes.guess_type` yields nothing the
mime type defaults to `text/plain`. -/
def mimeOf (f : FileEntry) : String :=
  f.guessedMime.getD "text/plain"

/-- Executable model of `str.startswith`: prefix test on the character
lists of the two strings. -/
def strStartsWith (s pre : String) : Bool :=
  pre.data.isPrefixOf s.data

/-- `worker.py` lines 82-86: a file is binary media exactly when its
mime type starts with `image/` or `audio/` or equals `application/pdf`. -/
def is_media_or_pdf (mime : String) : Bool :=
  strStartsWith mime "image/" || strStartsWith mime "audio/" || mime == "application/pdf"

/-- `worker.py` lines 113-118: try utf-8 first; on `UnicodeDecodeError`
fall back to latin-1; any other exception propagates to the outer
handler of the text branch. -/
def readTextFallback (f : FileEntry) : Except String String :=
  match f.readUtf8 with
  | .ok c => .ok c
  | .unicodeError =>
    match f.readLatin1 with
    | .ok c => .ok c
    | .unicodeError => .error "UnicodeDecodeError"
    | .osError e => .error e
  | .osError e => .error e

/-- Processing of a single entry of `file_paths` (`worker.py` lines
72-124): events produced and parts contributed. -/
def processFile (f : FileEntry) : List Event × List Part :=
  if f.fileExists = false then
    ([], [])
  else
    let mime := mimeOf f
    if is_media_or_pdf mime then
      match f.upload with
      | .ok uri m =>
        ([Event.netUpload f.name], [Part.fromUri uri m])
      | .failed e =>
        ([Event.netUpload f.name,
          Event.warn ("Failed to upload media " ++ f.name ++ ": " ++ e)], [])
    else
      match readTextFallback f with
      | .ok c =>
        ([], [Part.text ("\n[FILE: " ++ f.name ++ "]\n" ++ c ++ "\n")])
      | .error e =>
        ([Event.warn ("Failed to read text file " ++ f.name ++ ": " ++ e)], [])

/-- The `for path_str in self.file_paths` loop: events and the
accumulated `current_parts` contributions, in input order. -/
def processFiles : List FileEntry → List Event × List Part
  | [] => ([], [])
  | f :: rest =>
    let r₁ := processFile f
    let r₂ := processFiles rest
    (r₁.1 ++ r₂.1, r₁.2 ++ r₂.2)

/-- `worker.py` lines 126-128 and the file loop: `current_parts` is the
attachment parts in input order, then the prompt text part last,
omitted when the prompt is empty (Python falsy). -/
def currentParts (prompt : String) (files : List FileEntry) : List Part :=
  (processFiles files).2 ++ (if prompt = "" then [] else [Part.text prompt])

/-- `worker.py` lines 61-63: each history item becomes one content entry
with its recorded role and a single text part. -/
def buildHistory (history : List HistItem) : List Content :=
  history.map fun h => { role := h.role, parts := [Part.text h.text] }

/-- `worker.py` line 134: the full `gemini_contents` payload once the
parts check passed: history first, then one new `user` turn. -/
def geminiContents (prompt : String) (files : List FileEntry)
    (history : List HistItem) : List Content :=
  buildHistory history ++ [{ role := "user", parts := currentParts prompt files }]

/-- Outcome of `client.models.generate_content`: a response whose
`.text` is the given string (empty string models a falsy text), or a
raised exception with the given message. -/
inductive GenOutcome where
  | ok (text : String)
  | raise (msg : String)
deriving Repr, DecidableEq

/-- Whether `needle` occurs as a contiguous sublist of `hay`. -/
def substrAux (needle : List Char) : List Char → Bool
  | [] => needle.isEmpty
  | c :: rest => needle.isPrefixOf (c :: rest) || substrAux needle rest

/-- Boolean substring test, modelling the Python `in` operator on
strings. -/
def substr (needle hay : String) : Bool :=
  substrAux needle.data hay.data

/-- `worker.py` lines 172-179: the `except` branch maps the exception
text to the emitted error message. -/
def classifyError (e : String) : String :=
  if substr "ResourceExhausted" e || substr "429" e then
    "Rate limit exceeded. Please wait. Details: " ++ e
  else if substr "GoogleAuthError" e || substr "401" e || substr "Unauthenticated" e then
    "Authentication error. Check API key. Details: " ++ e
  else
    "An unexpected error occurred: " ++ e

/-- The body of the `try` block after a successful acquire
(`worker.py` lines 57-170), together with the `except` handler: the
event trace it produces. -/
def runBody (prompt : String) (files : List FileEntry) (gen : GenOutcome) :
    List Event :=
  if (currentParts prompt files).isEmpty then
    (processFiles files).1 ++
      [Event.errorEmit "No content to send (Prompt is empty and no valid files)."]
  else
    (processFiles files).1 ++ [Event.netGenerate] ++
      match gen with
      | .ok t =>
        if t = "" then [Event.errorEmit "Blocked by Safety Filters (Empty Response)"]
        else [Event.finishedEmit t]
      | .raise e => [Event.errorEmit (classifyError e)]

/-- `GeminiWorker.run`: `acq` is the result of
`RATE_LIMITER.acquire(blocking=True, timeout=30)` together with the
limiter state it left behind.  On failure the worker emits the rate
limit error and returns; on success it runs the body.  The `finally`
block (`worker.py` lines 180-181) runs `RATE_LIMITER.release()` on
every path — including the acquire-failure return.  The result is the
event trace and the final limiter state. -/
def run (acq : Bool × RateLimiter) (prompt : String) (files : List FileEntry)
    (gen : GenOutcome) : List Event × RateLimiter :=
  let evs :=
    if acq.1 then runBody prompt files gen
    else [Event.errorEmit "Rate limit exceeded: Could not acquire token after waiting."]
  (evs ++ [Event.release], acq.2.release)

/-- An event is a network call when it is an upload or the generate
call. -/
def Event.isNetworkCall : Event → Bool
  | .netUpload _ => true
  | .netGenerate => true
  | _ => false

/-! ## Sample inputs used by witnesses -/

/-- A readable text file with no guessable mime type. -/
def sampleTextFile : FileEntry :=
  { name := "a.txt", fileExists := true, guessedMime := none,
    readUtf8 := .ok "hi", readLatin1 := .ok "hi", upload := .failed "x" }

/-- An image file whose upload succeeds. -/
def sampleMediaFile : FileEntry :=
  { name := "a.png", fileExists := true, guessedMime := some "image/png",
    readUtf8 := .osError "binary", readLatin1 := .osError "binary",
    upload := .ok "files/abc" "image/png" }

/-- An image file whose upload fails. -/
def sampleBadMediaFile : FileEntry :=
  { name := "b.png", fileExists := true, guessedMime := some "image/png",
    readUtf8 := .osError "binary", readLatin1 := .osError "binary",
    upload := .failed "boom" }

/-- A text file whose read raises an OS error. -/
def sampleBadTextFile : FileEntry :=
  { name := "b.txt", fileExists := true, guessedMime := none,
    readUtf8 := .osError "denied", readLatin1 := .osError "denied",
    upload := .ok "u" "m" }

/-! ## Helper lemmas about the worker -/

lemma processFile_events_cases (f : FileEntry) (e : Event)
    (he : e ∈ (processFile f).1) :
    (∃ n, e = Event.netUpload n) ∨ (∃ m, e = Event.warn m) := by
  unfold processFile at he
  split at he
  · simp at he
  · dsimp only at he
    split at he
    · split at he
      · simp only [List.mem_singleton] at he
        exact Or.inl ⟨f.name, he⟩
      · rcases (by simpa using he : e = Event.netUpload f.name ∨ _) with h | h
        · exact Or.inl ⟨f.name, h⟩
        · exact Or.inr ⟨_, h⟩
    · split at he
      · simp at he
      · simp only [List.mem_singleton] at he
        exact Or.inr ⟨_, he⟩

lemma processFiles_events_cases (files : List FileEntry) (e : Event)
    (he : e ∈ (processFiles files).1) :
    (∃ n, e = Event.netUpload n) ∨ (∃ m, e = Event.warn m) := by
  induction files with
  | nil => simp [processFiles] at he
  | cons f rest ih =>
    simp only [processFiles, List.mem_append] at he
    rcases he with h | h
    · exact processFile_events_cases f e h
    · exact ih h

lemma release_not_mem_processFiles (files : List FileEntry) :
    Event.release ∉ (processFiles files).1 := by
  intro h
  rcases processFiles_events_cases files _ h with ⟨n, hn⟩ | ⟨m, hm⟩
  · simp at hn
  · simp at hm

lemma netGenerate_not_mem_processFiles (files : List FileEntry) :
    Event.netGenerate ∉ (processFiles files).1 := by
  intro h
  rcases processFiles_events_cases files _ h with ⟨n, hn⟩ | ⟨m, hm⟩
  · simp at hn
  · simp at hm

lemma release_not_mem_runBody (prompt : String) (files : List FileEntry)
    (gen : GenOutcome) : Event.release ∉ runBody prompt files gen := by
  have hf := release_not_mem_processFiles files
  unfold runBody
  split
  · simp [hf]
  · rcases gen with t | e
    · dsimp only
      split
      · simp [hf]
      · simp [hf]
    · simp [hf]

lemma runBody_empty (prompt : String) (files : List FileEntry)
    (gen : GenOutcome) (h : currentParts prompt files = []) :
    runBody prompt files gen = (processFiles files).1 ++
      [Event.errorEmit "No content to send (Prompt is empty and no valid files)."] := by
  unfold runBody
  rw [h]
  simp

lemma runBody_netGenerate (prompt : String) (files : List FileEntry)
    (gen : GenOutcome) (h : currentParts prompt files ≠ []) :
    Event.netGenerate ∈ runBody prompt files gen := by
  unfold runBody
  rw [if_neg (by simpa [List.isEmpty_iff] using h)]
  simp

lemma processFiles_append (xs ys : List FileEntry) :
    (processFiles (xs ++ ys)).1 = (processFiles xs).1 ++ (processFiles ys).1 ∧
    (processFiles (xs ++ ys)).2 = (processFiles xs).2 ++ (processFiles ys).2 := by
  induction xs with
  | nil => simp [processFiles]
  | cons f rest ih =>
    simp [processFiles, ih.1, ih.2]

/-! ## Helper lemmas about the rate limiter -/

lemma refill_token_max (L : RateLimiter) :
    (L.refill_token).max_requests = L.max_requests := by
  unfold RateLimiter.refill_token
  split <;> rfl

lemma refill_token_inv (L : RateLimiter) (h : L.tokens ≤ L.max_requests) :
    (L.refill_token).tokens ≤ (L.refill_token).max_requests := by
  unfold RateLimiter.refill_token
  split
  · simp_all
    omega
  · simp_all

lemma refill_iterate_inv (n : Nat) (L : RateLimiter)
    (h : L.tokens ≤ L.max_requests) :
    (RateLimiter.refill_token^[n] L).tokens
      ≤ (RateLimiter.refill_token^[n] L).max_requests := by
  induction n generalizing L with
  | zero => simpa using h
  | succ n ih =>
    rw [Function.iterate_succ_apply]
    exact ih _ (refill_token_inv L h)

lemma acquireAux_inv (blocking : Bool) (timeout : Option Nat)
    (refills : Nat → Nat) :
    ∀ fuel L k b L2, L.tokens ≤ L.max_requests →
      RateLimiter.acquireAux blocking timeout refills L k fuel = some (b, L2) →
      L2.tokens ≤ L2.max_requests := by
  intro fuel
  induction fuel with
  | zero =>
    intro L k b L2 h hEq
    simp [RateLimiter.acquireAux] at hEq
  | succ f ih =>
    intro L k b L2 h hEq
    simp only [RateLimiter.acquireAux] at hEq
    split at hEq
    · simp only [Option.some.injEq, Prod.mk.injEq] at hEq
      obtain ⟨-, h2⟩ := hEq
      subst h2
      simpa using Nat.le_trans (Nat.sub_le _ _) h
    · split at hEq
      · simp only [Option.some.injEq, Prod.mk.injEq] at hEq
        obtain ⟨-, h2⟩ := hEq
        subst h2
        exact h
      · split at hEq
        · split at hEq
          · simp only [Option.some.injEq, Prod.mk.injEq] at hEq
            obtain ⟨-, h2⟩ := hEq
            subst h2
            exact h
          · exact ih _ _ _ _ (refill_iterate_inv _ _ h) hEq
        · exact ih _ _ _ _ (refill_iterate_inv _ _ h) hEq

lemma acquireAux_succ (blocking : Bool) (timeout : Option Nat)
    (refills : Nat → Nat) (L : RateLimiter) (k fuel : Nat) :
    RateLimiter.acquireAux blocking timeout refills L k (fuel + 1) =
      if 0 < L.tokens then
        some (true, { L with tokens := L.tokens - 1 })
      else if blocking = false then
        some (false, L)
      else
        match timeout with
        | some T =>
          if T ≤ k then
            some (false, L)
          else
            RateLimiter.acquireAux blocking timeout refills
              (RateLimiter.refill_token^[refills k] L) (k + 1) fuel
        | none =>
          RateLimiter.acquireAux blocking timeout refills
            (RateLimiter.refill_token^[refills k] L) (k + 1) fuel := rfl

lemma acquireAux_timeout (T : Nat) (refills : Nat → Nat)
    (hr : ∀ k, refills k = 0) (L : RateLimiter) (hL : L.tokens = 0) :
    ∀ fuel k, T ≤ k + fuel →
      RateLimiter.acquireAux true (some T) refills L k (fuel + 1)
        = some (false, L) := by
  intro fuel
  induction fuel with
  | zero =>
    intro k hk
    simp only [Nat.add_zero] at hk
    rw [acquireAux_succ]
    simp [hL, hk]
  | succ f ih =>
    intro k hk
    rw [acquireAux_succ]
    rcases le_or_lt T k with h | h
    · simp [hL, h]
    · simp only [hL, Nat.lt_irrefl, if_false, Bool.true_eq_false,
        Nat.not_le.mpr h, hr k, Function.iterate_zero, id_eq]
      exact ih (k + 1) (by omega)

lemma refill_iterate_tokens (cap t : Nat) (h : t ≤ cap) (n : Nat) :
    (RateLimiter.refill_token^[n]
        { max_requests := cap, tokens := t } : RateLimiter).tokens
      = min (t + n) cap := by
  induction n generalizing t with
  | zero => simpa using (Nat.min_eq_left h).symm
  | succ n ih =>
    rw [Function.iterate_succ_apply]
    rcases Nat.lt_or_ge t cap with hlt | hge
    · have : (RateLimiter.refill_token { max_requests := cap, tokens := t })
          = { max_requests := cap, tokens := t + 1 } := by
        simp [RateLimiter.refill_token, hlt]
      rw [this, ih (t + 1) hlt]
      omega
    · have ht : t = cap := Nat.le_antisymm h hge
      have : (RateLimiter.refill_token { max_requests := cap, tokens := t })
          = { max_requests := cap, tokens := t } := by
        simp [RateLimiter.refill_token, ht]
      rw [this, ih t h]
      omega

/-! ## Claims C5, C6, C7 -/

/-- C5: `acquire` decrements the token count by one and returns true
when a token is available; with an empty bucket it returns false
immediately when not blocking, and when blocking with a timeout it
polls (one decisecond per iteration) and returns false once the
timeout has elapsed from call start with no token having become
available. -/
theorem acquire_spec (L : RateLimiter) (blocking : Bool)
    (timeout : Option Nat) (refills : Nat → Nat) (fuel : Nat)
    (hfuel : 0 < fuel) :
    (0 < L.tokens →
      L.acquire blocking timeout refills fuel
        = some (true, { L with tokens := L.tokens - 1 })) ∧
    (L.tokens = 0 → blocking = false →
      L.acquire blocking timeout refills fuel = some (false, L)) ∧
    (∀ T, L.tokens = 0 → (∀ k, refills k = 0) → T < fuel →
      L.acquire true (some T) refills fuel = some (false, L)) := by
  obtain ⟨f, rfl⟩ : ∃ f, fuel = f + 1 := ⟨fuel - 1, by omega⟩
  refine ⟨?_, ?_, ?_⟩
  · intro h
    simp [RateLimiter.acquire, RateLimiter.acquireAux, h]
  · intro h hb
    subst hb
    simp [RateLimiter.acquire, RateLimiter.acquireAux, h]
  · intro T h hr hT
    have := acquireAux_timeout T refills hr L h f 0 (by omega)
    simpa [RateLimiter.acquire] using this

/-- C5 witness: with 20 capacity, 0 tokens, no concurrent refills and a
30 s (300 decisecond) timeout, the blocking acquire returns false and
leaves the bucket unchanged. -/
theorem acquire_spec_witness :
    RateLimiter.acquire { max_requests := 20, tokens := 0 } true (some 300)
        (fun _ => 0) 301
      = some (false, { max_requests := 20, tokens := 0 }) :=
  (acquire_spec { max_requests := 20, tokens := 0 } true (some 300)
      (fun _ => 0) 301 (by decide)).2.2 300 rfl (fun _ => rfl) (by decide)

/-- C6: the invariant `tokens ≤ max_requests` (token counts are
naturals, so `0 ≤ tokens` is inherent in the model) holds after
construction and is preserved by acquire, release, and refill firings;
a release on a full bucket leaves `remaining` unchanged. -/
theorem limiter_invariant (cap : Nat) (L : RateLimiter)
    (hL : L.tokens ≤ L.max_requests) :
    (RateLimiter.init cap).tokens ≤ (RateLimiter.init cap).max_requests ∧
    (L.release).tokens ≤ (L.release).max_requests ∧
    (L.refill_token).tokens ≤ (L.refill_token).max_requests ∧
    (∀ blocking timeout refills fuel b L2,
      L.acquire blocking timeout refills fuel = some (b, L2) →
      L2.tokens ≤ L2.max_requests) ∧
    (L.tokens = L.max_requests → (L.release).remaining = L.remaining) := by
  refine ⟨Nat.le_refl _, ?_, refill_token_inv L hL, ?_, ?_⟩
  · simp [RateLimiter.release]
  · intro blocking timeout refills fuel b L2 hEq
    exact acquireAux_inv blocking timeout refills fuel L 0 b L2 hL hEq
  · intro hfull
    simp [RateLimiter.release, RateLimiter.remaining, hfull]

/-- C6 witness: a release on the full bucket of capacity 20 leaves
`remaining` at 20. -/
theorem limiter_invariant_witness :
    (({ max_requests := 20, tokens := 20 } : RateLimiter).release).remaining
      = ({ max_requests := 20, tokens := 20 } : RateLimiter).remaining :=
  (limiter_invariant 20 { max_requests := 20, tokens := 20 }
      (by decide)).2.2.2.2 rfl

/-- C7: the refill interval is `period / capacity`, so `capacity`
firings span `period` seconds; each firing adds exactly one token,
capped at capacity; starting from an empty bucket the token count
after `n` firings is `min n capacity`, monotone in `n`, and equals
`capacity` after `capacity` firings. -/
theorem auto_refill_spec (cap : Nat) (hcap : 0 < cap) (period : ℚ) :
    (cap : ℚ) * RateLimiter.refill_interval cap period = period ∧
    (∀ L : RateLimiter,
      (L.refill_token).tokens = min (L.tokens + 1) L.max_requests
        ∨ L.max_requests < L.tokens) ∧
    (∀ n, (RateLimiter.refill_token^[n]
        { max_requests := cap, tokens := 0 } : RateLimiter).remaining
      = min n cap) ∧
    (∀ m n, m ≤ n →
      (RateLimiter.refill_token^[m]
          { max_requests := cap, tokens := 0 } : RateLimiter).remaining
        ≤ (RateLimiter.refill_token^[n]
          { max_requests := cap, tokens := 0 } : RateLimiter).remaining) ∧
    (RateLimiter.refill_token^[cap]
        { max_requests := cap, tokens := 0 } : RateLimiter).remaining = cap := by
  have hne : (cap : ℚ) ≠ 0 := by
    exact_mod_cast hcap.ne'
  have hmin : ∀ n, (RateLimiter.refill_token^[n]
      { max_requests := cap, tokens := 0 } : RateLimiter).remaining = min n cap := by
    intro n
    simpa [RateLimiter.remaining] using
      refill_iterate_tokens cap 0 (Nat.zero_le cap) n
  refine ⟨?_, ?_, hmin, ?_, ?_⟩
  · rw [RateLimiter.refill_interval, mul_comm, div_mul_cancel₀ _ hne]
  · intro L
    rcases Nat.lt_or_ge L.tokens L.max_requests with hlt | hge
    · left
      simp [RateLimiter.refill_token, hlt]
      omega
    · rcases Nat.lt_or_ge L.max_requests L.tokens with hgt | hle
      · right; exact hgt
      · left
        have ht : L.tokens = L.max_requests := Nat.le_antisymm hle hge
        simp [RateLimiter.refill_token, ht]
  · intro m n hmn
    rw [hmin m, hmin n]
    exact min_le_min hmn le_rfl
  · rw [hmin cap]
    exact Nat.min_self cap

/-- C7 witness: with capacity 20, 20 firings fill the empty bucket and
`20 * refill_interval (60 / 20) = 60`. -/
theorem auto_refill_spec_witness :
    ((20 : Nat) : ℚ) * RateLimiter.refill_interval 20 60 = 60 ∧
    (RateLimiter.refill_token^[20]
        { max_requests := 20, tokens := 0 } : RateLimiter).remaining = 20 :=
  ⟨(auto_refill_spec 20 (by decide) 60).1,
   (auto_refill_spec 20 (by decide) 60).2.2.2.2⟩

/-! ## Claims C1 .. C4, C8 .. C10 -/

/-- C1: evaluation of the code at the failing input.  With an empty
bucket and all refills absent, `acquire(blocking=True, timeout=30)`
(300 deciseconds) returns false; the run then emits the rate-limited
error and makes no network call, as the claim states — but contrary to
the claim the `finally` block still performs a release, so the token
count moves from 0 to 1 instead of staying unchanged. -/
theorem timeout_path_still_releases :
    RateLimiter.acquire { max_requests := 20, tokens := 0 } true (some 300)
        (fun _ => 0) 400
      = some (false, { max_requests := 20, tokens := 0 }) ∧
    (run (false, { max_requests := 20, tokens := 0 }) "hi" []
        (GenOutcome.ok "ok")).1
      = [Event.errorEmit "Rate limit exceeded: Could not acquire token after waiting.",
         Event.release] ∧
    ((run (false, { max_requests := 20, tokens := 0 }) "hi" []
        (GenOutcome.ok "ok")).1.filter Event.isNetworkCall) = [] ∧
    (run (false, { max_requests := 20, tokens := 0 }) "hi" []
        (GenOutcome.ok "ok")).2.tokens = 1 := by
  refine ⟨?_, rfl, rfl, rfl⟩
  have h := acquireAux_timeout 300 (fun _ => 0) (fun _ => rfl)
      { max_requests := 20, tokens := 0 } rfl 399 0 (by omega)
  simpa [RateLimiter.acquire] using h

/-- C2: after a successful acquire, every exit path of the run —
success, empty-request failure, safety-blocked response, raised
exception — performs exactly one release, so the token count returns
to its pre-acquire value. -/
theorem run_releases_exactly_once (prompt : String) (files : List FileEntry)
    (gen : GenOutcome) (L L' : RateLimiter) (blocking : Bool)
    (timeout : Option Nat) (refills : Nat → Nat) (fuel : Nat)
    (h0 : 0 < L.tokens) (hcap : L.tokens ≤ L.max_requests) (hfuel : 0 < fuel)
    (hacq : L.acquire blocking timeout refills fuel = some (true, L')) :
    (run (true, L') prompt files gen).1.count Event.release = 1 ∧
    (run (true, L') prompt files gen).2.tokens = L.tokens := by
  obtain ⟨f, rfl⟩ : ∃ f, fuel = f + 1 := ⟨fuel - 1, by omega⟩
  rw [RateLimiter.acquire, acquireAux_succ, if_pos h0] at hacq
  simp only [Option.some.injEq, Prod.mk.injEq] at hacq
  obtain ⟨-, hL'⟩ := hacq
  subst hL'
  constructor
  · have hz : (runBody prompt files gen).count Event.release = 0 :=
      List.count_eq_zero.mpr (release_not_mem_runBody prompt files gen)
    simp [run, List.count_append, hz]
  · simp only [run, RateLimiter.release]
    omega

/-- C2 witness: full bucket of 20, immediate acquire, trivial body. -/
theorem run_releases_exactly_once_witness :
    (run (true, { max_requests := 20, tokens := 19 }) "hi" []
        (GenOutcome.ok "done")).1.count Event.release = 1 ∧
    (run (true, { max_requests := 20, tokens := 19 }) "hi" []
        (GenOutcome.ok "done")).2.tokens = 20 :=
  run_releases_exactly_once "hi" [] (GenOutcome.ok "done")
    { max_requests := 20, tokens := 20 } { max_requests := 20, tokens := 19 }
    true (some 300) (fun _ => 0) 1 (by decide) (by decide) (by decide) rfl

/-- C3: counterexample to the claim as stated.  With an empty prompt
and a single media attachment whose upload fails, the build does fail
with the empty-request error, but a network call — the File-API upload
— has already been made before the zero-parts check, refuting "this
zero-parts condition is checked before any network call is made". -/
theorem empty_request_after_upload_call :
    runBody "" [sampleBadMediaFile] (GenOutcome.ok "ok")
      = [Event.netUpload "b.png",
         Event.warn "Failed to upload media b.png: boom",
         Event.errorEmit "No content to send (Prompt is empty and no valid files)."] ∧
    (Event.netUpload "b.png").isNetworkCall = true := ⟨rfl, rfl⟩

/-- C3 (amended): when the prompt is empty and attachment processing
yields zero parts, the run fails with the empty-request error and the
`generate_content` call is never made (media uploads may already have
happened); with an empty prompt and one valid attachment the build
succeeds with exactly one part and reaches the generate call. -/
theorem empty_request_before_generate (prompt : String)
    (files : List FileEntry) (gen gen' : GenOutcome) (f : FileEntry)
    (hempty : currentParts prompt files = [])
    (hvalid : (processFile f).2.length = 1) :
    Event.errorEmit "No content to send (Prompt is empty and no valid files)."
        ∈ runBody prompt files gen ∧
    Event.netGenerate ∉ runBody prompt files gen ∧
    (currentParts "" [f]).length = 1 ∧
    Event.netGenerate ∈ runBody "" [f] gen' := by
  have hlen : (currentParts "" [f]).length = 1 := by
    simp [currentParts, processFiles, hvalid]
  refine ⟨?_, ?_, hlen, ?_⟩
  · rw [runBody_empty prompt files gen hempty]
    simp
  · rw [runBody_empty prompt files gen hempty]
    simp [netGenerate_not_mem_processFiles files]
  · exact runBody_netGenerate "" [f] gen'
      (List.ne_nil_of_length_pos (by omega))

/-- C3 witness: no files and empty prompt on one side, a single
readable unknown-mime text file on the other. -/
theorem empty_request_before_generate_witness :
    Event.errorEmit "No content to send (Prompt is empty and no valid files)."
        ∈ runBody "" [] (GenOutcome.ok "y") ∧
    Event.netGenerate ∉ runBody "" [] (GenOutcome.ok "y") ∧
    (currentParts "" [sampleTextFile]).length = 1 ∧
    Event.netGenerate ∈ runBody "" [sampleTextFile] (GenOutcome.ok "y") :=
  empty_request_before_generate "" [] (GenOutcome.ok "y") (GenOutcome.ok "y")
    sampleTextFile rfl rfl

/-- C4: the payload is the prior turns mapped 1:1 in original order
with their recorded roles, followed by exactly one new user turn whose
parts are the attachment parts in input order and then the prompt text
part last, the prompt part being omitted when the prompt is empty. -/
theorem payload_shape (prompt : String) (files : List FileEntry)
    (history : List HistItem) :
    geminiContents prompt files history
      = history.map (fun h => { role := h.role, parts := [Part.text h.text] })
          ++ [{ role := "user", parts := currentParts prompt files }] ∧
    (geminiContents prompt files history).length = history.length + 1 ∧
    (prompt ≠ "" →
      (currentParts prompt files).getLast? = some (Part.text prompt) ∧
      (currentParts prompt files).dropLast = (processFiles files).2) ∧
    (prompt = "" → currentParts prompt files = (processFiles files).2) := by
  refine ⟨rfl, ?_, ?_, ?_⟩
  · simp [geminiContents, buildHistory]
  · intro hp
    constructor
    · simp [currentParts, hp]
    · simp [currentParts, hp]
  · intro hp
    simp [currentParts, hp]

/-- C4 witness: nonempty prompt with one attachment. -/
theorem payload_shape_witness :
    (currentParts "p" [sampleTextFile]).getLast? = some (Part.text "p") ∧
    (currentParts "p" [sampleTextFile]).dropLast
      = (processFiles [sampleTextFile]).2 :=
  (payload_shape "p" [sampleTextFile] []).2.2.1 (by decide)

/-- C8: a file that cannot be read, or whose upload fails, is skipped
with a logged warning and does not abort the request: the parts are
exactly those of the remaining files plus the prompt part, and the run
still reaches the generate call. -/
theorem failed_attachment_skipped (pre post : List FileEntry)
    (bad : FileEntry) (prompt : String) (gen : GenOutcome)
    (hex : bad.fileExists = true)
    (hbad : (is_media_or_pdf (mimeOf bad) = false ∧
              ∃ e, readTextFallback bad = .error e) ∨
            (is_media_or_pdf (mimeOf bad) = true ∧
              ∃ e, bad.upload = .failed e))
    (hp : prompt ≠ "") :
    (processFiles (pre ++ bad :: post)).2
      = (processFiles pre).2 ++ (processFiles post).2 ∧
    (∃ m, Event.warn m ∈ (processFiles (pre ++ bad :: post)).1) ∧
    currentParts prompt (pre ++ bad :: post)
      = (processFiles pre).2 ++ (processFiles post).2 ++ [Part.text prompt] ∧
    Event.netGenerate ∈ runBody prompt (pre ++ bad :: post) gen := by
  have hbadp : (processFile bad).2 = [] ∧
      ∃ m, Event.warn m ∈ (processFile bad).1 := by
    rcases hbad with ⟨hm, e, hre⟩ | ⟨hm, e, hup⟩
    · constructor
      · simp [processFile, hex, hm, hre]
      · exact ⟨"Failed to read text file " ++ bad.name ++ ": " ++ e, by
          simp [processFile, hex, hm, hre]⟩
    · constructor
      · simp [processFile, hex, hm, hup]
      · exact ⟨"Failed to upload media " ++ bad.name ++ ": " ++ e, by
          simp [processFile, hex, hm, hup]⟩
  have hparts : (processFiles (pre ++ bad :: post)).2
      = (processFiles pre).2 ++ (processFiles post).2 := by
    rw [(processFiles_append pre (bad :: post)).2]
    simp [processFiles, hbadp.1]
  have hcp : currentParts prompt (pre ++ bad :: post)
      = (processFiles pre).2 ++ (processFiles post).2 ++ [Part.text prompt] := by
    simp [currentParts, hparts, hp]
  refine ⟨hparts, ?_, hcp, ?_⟩
  · obtain ⟨m, hm⟩ := hbadp.2
    refine ⟨m, ?_⟩
    rw [(processFiles_append pre (bad :: post)).1]
    simp only [processFiles, List.mem_append]
    exact Or.inr (Or.inl hm)
  · refine runBody_netGenerate prompt (pre ++ bad :: post) gen ?_
    rw [hcp]
    simp

/-- C8 witness: one unreadable file between two valid ones, nonempty
prompt. -/
theorem failed_attachment_skipped_witness :
    (processFiles [sampleTextFile, sampleBadTextFile, sampleMediaFile]).2
      = (processFiles [sampleTextFile]).2 ++ (processFiles [sampleMediaFile]).2 ∧
    currentParts "go" [sampleTextFile, sampleBadTextFile, sampleMediaFile]
      = (processFiles [sampleTextFile]).2 ++ (processFiles [sampleMediaFile]).2
          ++ [Part.text "go"] ∧
    Event.netGenerate
      ∈ runBody "go" [sampleTextFile, sampleBadTextFile, sampleMediaFile]
          (GenOutcome.ok "y") :=
  have h := failed_attachment_skipped [sampleTextFile] [sampleMediaFile]
    sampleBadTextFile "go" (GenOutcome.ok "y") rfl
    (Or.inl ⟨rfl, "denied", rfl⟩) (by decide)
  ⟨h.1, h.2.2.1, h.2.2.2⟩

/-- C9: a file is classified as binary media exactly when its mime
type starts with `image/` or `audio/` or equals `application/pdf`;
such a file with a successful upload becomes one remote file-reference
part; every other file is read as utf-8, with latin-1 as the fallback
after a decode failure, and becomes one inline text part labeled with
the file's name. -/
theorem classification_spec (f : FileEntry) (hex : f.fileExists = true) :
    (is_media_or_pdf (mimeOf f) = true ↔
      strStartsWith (mimeOf f) "image/" = true ∨
      strStartsWith (mimeOf f) "audio/" = true ∨
      mimeOf f = "application/pdf") ∧
    (∀ uri m, is_media_or_pdf (mimeOf f) = true → f.upload = .ok uri m →
      processFile f = ([Event.netUpload f.name], [Part.fromUri uri m])) ∧
    (∀ c, is_media_or_pdf (mimeOf f) = false → f.readUtf8 = .ok c →
      processFile f
        = ([], [Part.text ("\n[FILE: " ++ f.name ++ "]\n" ++ c ++ "\n")])) ∧
    (∀ c, is_media_or_pdf (mimeOf f) = false → f.readUtf8 = .unicodeError →
      f.readLatin1 = .ok c →
      processFile f
        = ([], [Part.text ("\n[FILE: " ++ f.name ++ "]\n" ++ c ++ "\n")])) := by
  refine ⟨?_, ?_, ?_, ?_⟩
  · simp [is_media_or_pdf, Bool.or_eq_true, beq_iff_eq, or_assoc]
  · intro uri m hm hup
    simp [processFile, hex, hm, hup]
  · intro c hm hr
    simp [processFile, hex, hm, readTextFallback, hr]
  · intro c hm hr8 hr1
    simp [processFile, hex, hm, readTextFallback, hr8, hr1]

/-- C9 witness: the sample image upload becomes a file-reference part. -/
theorem classification_spec_witness :
    processFile sampleMediaFile
      = ([Event.netUpload "a.png"], [Part.fromUri "files/abc" "image/png"]) :=
  (classification_spec sampleMediaFile rfl).2.1 "files/abc" "image/png"
    (by decide) rfl

/-- C10: a file whose mime type cannot be guessed defaults to
`text/plain`, is never classified as media — so it is never uploaded
as a remote reference — and its decoded content is inlined as a
labeled text part. -/
theorem unknown_mime_inlined (f : FileEntry) (hex : f.fileExists = true)
    (hm : f.guessedMime = none) :
    mimeOf f = "text/plain" ∧
    is_media_or_pdf (mimeOf f) = false ∧
    (∀ c, readTextFallback f = .ok c →
      processFile f
        = ([], [Part.text ("\n[FILE: " ++ f.name ++ "]\n" ++ c ++ "\n")])) ∧
    (∀ n, Event.netUpload n ∉ (processFile f).1) := by
  have hmv : mimeOf f = "text/plain" := by simp [mimeOf, hm]
  have hmedia : is_media_or_pdf (mimeOf f) = false := by
    rw [hmv]
    decide
  refine ⟨hmv, hmedia, ?_, ?_⟩
  · intro c hr
    simp [processFile, hex, hmedia, hr]
  · intro n h
    rcases hre : readTextFallback f with c | e
    · simp [processFile, hex, hmedia, hre] at h
    · simp [processFile, hex, hmedia, hre] at h

/-- C10 witness: the sample extension-less text file is inlined. -/
theorem unknown_mime_inlined_witness :
    processFile sampleTextFile = ([], [Part.text "\n[FILE: a.txt]\nhi\n"]) :=
  (unknown_mime_inlined sampleTextFile rfl rfl).2.2.1 "hi" rfl

end GeminiGui
